import Mathlib

/-!
Shallow embedding of the annotation state machine of `src/src/App.jsx`
(a browser-based PDF annotation tool).  The React component is modelled
as a pure state machine: each event handler becomes a function from the
application state (the values of the `useState` hooks) to a new state.
State updates are given value semantics in statement order; reads of the
`pages` binding captured by a handler closure see the state at handler
entry.  Handlers that can dereference `undefined` in JavaScript
(`handleMouseMove` on a page with no in-progress element) return
`Option`.  Rendering, PDF decoding and styling are outside the model.
-/

namespace Whiteboard

/-- The drawing tools selectable in the toolbar: `selectedTool` is only
ever one of these four string constants in the source. -/
inductive Tool where
  | SCRIBBLE
  | ARROW
  | RECTANGLE
  | CIRCLE
deriving DecidableEq, Repr

/-- A pointer position as reported by `stage.getPointerPosition()`. -/
structure Pos where
  x : Int
  y : Int
deriving DecidableEq, Repr

/-- A freehand stroke: `{ points: [x0, y0, x1, y1, ...], thickness }`.
The `points` array is flat, alternating x and y coordinates. -/
structure Line where
  points : List Int
  thickness : Nat
deriving DecidableEq, Repr

/-- A parametric shape: `{ type, x, y, width, height, thickness }`.
`width` and `height` may be negative (normalised only at render time). -/
structure Shape where
  type : Tool
  x : Int
  y : Int
  width : Int
  height : Int
  thickness : Nat
deriving DecidableEq, Repr

/-- One page's annotation data, and also the type of history snapshots:
`{ lines, shapes }`.  The source's `actions` array is initialised empty
and never read or written afterwards, so it is omitted. -/
structure PageData where
  lines : List Line
  shapes : List Shape
deriving DecidableEq, Repr

/-- The empty page / empty history snapshot `{ lines: [], shapes: [] }`. -/
def emptyPage : PageData := { lines := [], shapes := [] }

/-- The `useState` hook values of the `App` component.  The `pages`
object keyed by page number is modelled as a partial map; `pdfFile`
records only whether a file is loaded; `fillColor` is render-only and
omitted. -/
structure AppState where
  isDrawing : Bool
  currentPage : Nat
  pages : Nat → Option PageData
  undoStack : List PageData
  redoStack : List PageData
  numPages : Nat
  pdfFile : Bool
  selectedTool : Tool
  thickness : Nat

/-- The component's initial state: page 1 empty, one empty snapshot on
the undo stack, empty redo stack, SCRIBBLE tool, thickness 2. -/
def initialState : AppState :=
  { isDrawing := false
    currentPage := 1
    pages := fun p => if p = 1 then some emptyPage else none
    undoStack := [emptyPage]
    redoStack := []
    numPages := 0
    pdfFile := false
    selectedTool := Tool.SCRIBBLE
    thickness := 2 }

/-- `{ ...pages, [p]: d }`: the map updated at one key. -/
def setPageEntry (pages : Nat → Option PageData) (p : Nat) (d : PageData) :
    Nat → Option PageData :=
  fun q => if q = p then some d else pages q

/-- `pages[p]?.lines || []`. -/
def pageLines (s : AppState) (p : Nat) : List Line :=
  ((s.pages p).map PageData.lines).getD []

/-- `pages[p]?.shapes || []`. -/
def pageShapes (s : AppState) (p : Nat) : List Shape :=
  ((s.pages p).map PageData.shapes).getD []

/-- The snapshot `{ lines: [...(pages[p]?.lines || [])], shapes: [...] }`
that `handleMouseDown`, `undoAction` and `redoAction` push. -/
def snapshotOf (s : AppState) (p : Nat) : PageData :=
  { lines := pageLines s p, shapes := pageShapes s p }

/-- `handleMouseDown` with a valid stage and pointer position: sets
`isDrawing`, pushes a snapshot of the current page onto the undo stack,
appends a one-point stroke (SCRIBBLE) or a zero-extent shape (other
tools) to the current page, and clears the redo stack. -/
def handleMouseDown (s : AppState) (pos : Pos) : AppState :=
  let snap := snapshotOf s s.currentPage
  let cur := (s.pages s.currentPage).getD emptyPage
  let cur2 :=
    if s.selectedTool = Tool.SCRIBBLE then
      { cur with lines :=
          cur.lines ++ [{ points := [pos.x, pos.y], thickness := s.thickness }] }
    else
      { cur with shapes :=
          cur.shapes ++ [{ type := s.selectedTool, x := pos.x, y := pos.y,
                           width := 0, height := 0, thickness := s.thickness }] }
  { s with isDrawing := true
           undoStack := s.undoStack ++ [snap]
           pages := setPageEntry s.pages s.currentPage cur2
           redoStack := [] }

/-- `handleMouseMove` with a valid stage and pointer position: a no-op
unless a draw is active; otherwise appends the point to the last stroke
(SCRIBBLE) or sets the last shape's extent to `pointer - origin`.  The
JavaScript dereferences `currentPageData` and the last array element
without a guard, so the paths where they are `undefined` return `none`
(a thrown `TypeError` in the source). -/
def handleMouseMove (s : AppState) (point : Pos) : Option AppState :=
  if s.isDrawing then
    match s.pages s.currentPage with
    | none => none
    | some cur =>
      if s.selectedTool = Tool.SCRIBBLE then
        match cur.lines.getLast? with
        | none => none
        | some lastLine =>
          let lastLine2 := { lastLine with
            points := lastLine.points ++ [point.x, point.y] }
          let cur2 := { cur with lines := cur.lines.dropLast ++ [lastLine2] }
          some { s with pages := setPageEntry s.pages s.currentPage cur2 }
      else
        match cur.shapes.getLast? with
        | none => none
        | some lastShape =>
          let lastShape2 := { lastShape with
            width := point.x - lastShape.x, height := point.y - lastShape.y }
          let cur2 := { cur with shapes := cur.shapes.dropLast ++ [lastShape2] }
          some { s with pages := setPageEntry s.pages s.currentPage cur2 }
  else
    some s

/-- `handleMouseUp`: marks no draw in progress; no other mutation. -/
def handleMouseUp (s : AppState) : AppState :=
  { s with isDrawing := false }

/-- `undoAction`: no-op when the undo stack is empty; otherwise pops the
top snapshot, pushes the current page's state onto the redo stack, and
replaces the current page's lines and shapes with the popped snapshot. -/
def undoAction (s : AppState) : AppState :=
  match s.undoStack.getLast? with
  | none => s
  | some lastState =>
    { s with undoStack := s.undoStack.dropLast
             redoStack := s.redoStack ++ [snapshotOf s s.currentPage]
             pages := setPageEntry s.pages s.currentPage
               ({ lines := lastState.lines, shapes := lastState.shapes }) }

/-- `redoAction`: no-op when the redo stack is empty; otherwise pops the
top snapshot, pushes the current page's state onto the undo stack, and
replaces the current page's lines and shapes with the popped snapshot. -/
def redoAction (s : AppState) : AppState :=
  match s.redoStack.getLast? with
  | none => s
  | some lastState =>
    { s with redoStack := s.redoStack.dropLast
             undoStack := s.undoStack ++ [snapshotOf s s.currentPage]
             pages := setPageEntry s.pages s.currentPage
               ({ lines := lastState.lines, shapes := lastState.shapes }) }

/-- `resetCanvas`: pages map replaced by a single empty entry for page 1,
undo stack reset to one empty snapshot, redo stack emptied, current page
set to 1. -/
def resetCanvas (s : AppState) : AppState :=
  { s with pages := fun p => if p = 1 then some emptyPage else none
           undoStack := [emptyPage]
           redoStack := []
           currentPage := 1 }

/-- `clearCanvas`: empties the current page's entry (other pages keep
their data), sets the undo stack to one empty snapshot and the redo
stack to the empty array. -/
def clearCanvas (s : AppState) : AppState :=
  { s with pages := setPageEntry s.pages s.currentPage emptyPage
           undoStack := [emptyPage]
           redoStack := [] }

/-- `navigatePage(page)`: lazily creates an empty entry for `page` when
absent, then sets the current page. -/
def navigatePage (s : AppState) (page : Nat) : AppState :=
  let pages2 :=
    if (s.pages page).isSome then s.pages
    else setPageEntry s.pages page emptyPage
  { s with pages := pages2, currentPage := page }

/-- `handleFileChange`: when a file is selected, stores it, resets the
page count and current page, and calls `resetCanvas`; otherwise only
logs an error and changes nothing. -/
def handleFileChange (s : AppState) (fileSelected : Bool) : AppState :=
  if fileSelected then
    resetCanvas { s with pdfFile := true, numPages := 0, currentPage := 1 }
  else
    s

/-- `handleToolSelect` in the toolbar: sets the selected tool. -/
def handleToolSelect (s : AppState) (t : Tool) : AppState :=
  { s with selectedTool := t }

/-- The states the application can reach from `initialState` through its
event handlers (`handleMouseMove` contributes a step only on its
non-throwing executions). -/
inductive Reachable : AppState → Prop where
  | init : Reachable initialState
  | mouseDown (s : AppState) (pos : Pos) :
      Reachable s → Reachable (handleMouseDown s pos)
  | mouseMove (s t : AppState) (point : Pos) :
      Reachable s → handleMouseMove s point = some t → Reachable t
  | mouseUp (s : AppState) : Reachable s → Reachable (handleMouseUp s)
  | undo (s : AppState) : Reachable s → Reachable (undoAction s)
  | redo (s : AppState) : Reachable s → Reachable (redoAction s)
  | clear (s : AppState) : Reachable s → Reachable (clearCanvas s)
  | navigate (s : AppState) (page : Nat) :
      Reachable s → Reachable (navigatePage s page)
  | fileChange (s : AppState) (fileSelected : Bool) :
      Reachable s → Reachable (handleFileChange s fileSelected)
  | toolSelect (s : AppState) (t : Tool) :
      Reachable s → Reachable (handleToolSelect s t)

/-- One completed draw operation: a pointer-down position followed by
the pointer-move positions, ended by pointer-up. -/
structure Draw where
  start : Pos
  moves : List Pos

/-- A sequence of `handleMouseMove` events (`none` when one throws). -/
def applyMoves : AppState → List Pos → Option AppState
  | s, [] => some s
  | s, p :: ps => (handleMouseMove s p).bind fun t => applyMoves t ps

/-- A completed draw: `handleMouseDown`, the moves, `handleMouseUp`. -/
def applyDraw (s : AppState) (d : Draw) : Option AppState :=
  (applyMoves (handleMouseDown s d.start) d.moves).map handleMouseUp

/-- A sequence of completed draws with nothing interleaved. -/
def applyDraws : AppState → List Draw → Option AppState
  | s, [] => some s
  | s, d :: ds => (applyDraw s d).bind fun t => applyDraws t ds

/-- The number of committed strokes plus shapes on page `p`. -/
def pageCount (s : AppState) (p : Nat) : Nat :=
  (pageLines s p).length + (pageShapes s p).length

/-- The state in the middle of drawing a rectangle begun at (50, 50). -/
def rectState : AppState :=
  handleMouseDown (handleToolSelect initialState Tool.RECTANGLE) ⟨50, 50⟩

/-- The state after two completed SCRIBBLE draws on page 1, at (1, 1)
and (3, 3). -/
def drawnTwice : AppState :=
  handleMouseUp (handleMouseDown (handleMouseUp
    (handleMouseDown initialState ⟨1, 1⟩)) ⟨3, 3⟩)

/-! ### Helper lemmas -/

theorem handleMouseDown_pages_current (s : AppState) (pos : Pos) :
    (s.selectedTool = Tool.SCRIBBLE →
      (handleMouseDown s pos).pages s.currentPage =
        some { lines := pageLines s s.currentPage ++
                 [{ points := [pos.x, pos.y], thickness := s.thickness }],
               shapes := pageShapes s s.currentPage }) ∧
    (s.selectedTool ≠ Tool.SCRIBBLE →
      (handleMouseDown s pos).pages s.currentPage =
        some { lines := pageLines s s.currentPage,
               shapes := pageShapes s s.currentPage ++
                 [{ type := s.selectedTool, x := pos.x, y := pos.y,
                    width := 0, height := 0, thickness := s.thickness }] }) := by
  constructor <;> intro ht <;>
    cases hp : s.pages s.currentPage <;>
      simp [handleMouseDown, setPageEntry, pageLines, pageShapes, emptyPage, hp, ht]

theorem handleMouseMove_scribble (s : AppState) (point : Pos) (pd : PageData)
    (pre : List Line) (l : Line) (hd : s.isDrawing = true)
    (hp : s.pages s.currentPage = some pd) (ht : s.selectedTool = Tool.SCRIBBLE)
    (hl : pd.lines = pre ++ [l]) :
    handleMouseMove s point =
      some { s with
              pages := setPageEntry s.pages s.currentPage
                        ({ pd with lines := pre ++
                            [{ l with points := l.points ++ [point.x, point.y] }] }) } := by
  simp [handleMouseMove, hd, hp, ht, hl]

theorem handleMouseMove_shape (s : AppState) (point : Pos) (pd : PageData)
    (pre : List Shape) (sh : Shape) (hd : s.isDrawing = true)
    (hp : s.pages s.currentPage = some pd) (ht : s.selectedTool ≠ Tool.SCRIBBLE)
    (hs : pd.shapes = pre ++ [sh]) :
    handleMouseMove s point =
      some { s with
              pages := setPageEntry s.pages s.currentPage
                        ({ pd with shapes := pre ++
                            [{ sh with width := point.x - sh.x,
                                       height := point.y - sh.y }] }) } := by
  simp [handleMouseMove, hd, hp, ht, hs]

theorem handleMouseMove_pages_isSome (s t : AppState) (point : Pos)
    (hs : (s.pages s.currentPage).isSome = true)
    (hm : handleMouseMove s point = some t) :
    (t.pages t.currentPage).isSome = true := by
  unfold handleMouseMove at hm
  split at hm
  · split at hm
    · exact absurd hm (by simp)
    · split at hm
      · split at hm
        · exact absurd hm (by simp)
        · injection hm with hm
          subst hm
          simp [setPageEntry]
      · split at hm
        · exact absurd hm (by simp)
        · injection hm with hm
          subst hm
          simp [setPageEntry]
  · injection hm with hm
    subst hm
    exact hs

theorem reachable_current_isSome (s : AppState) (h : Reachable s) :
    (s.pages s.currentPage).isSome := by
  induction h with
  | init => decide
  | mouseDown s pos _ _ =>
    simp [handleMouseDown, setPageEntry]
  | mouseMove s t point _ hm ih =>
    exact handleMouseMove_pages_isSome s t point ih hm
  | mouseUp s _ ih => exact ih
  | undo s _ ih =>
    cases hu : s.undoStack.getLast? with
    | none => simpa [undoAction, hu] using ih
    | some lastState => simp [undoAction, hu, setPageEntry]
  | redo s _ ih =>
    cases hr : s.redoStack.getLast? with
    | none => simpa [redoAction, hr] using ih
    | some lastState => simp [redoAction, hr, setPageEntry]
  | clear s _ ih => simp [clearCanvas, setPageEntry]
  | navigate s page _ ih =>
    by_cases h : (s.pages page).isSome
    · simp [navigatePage, h]
    · simp [navigatePage, setPageEntry, h]
  | fileChange s b _ ih =>
    cases b with
    | false => simpa [handleFileChange] using ih
    | true => simp [handleFileChange, resetCanvas]
  | toolSelect s t _ ih => exact ih

/-! ### Claim theorems -/

/-- Claim C1: in every reachable state with a non-empty undo stack,
`undoAction` immediately followed by `redoAction` restores the current
page's lines and shapes to exactly the values they had before the undo
(and the current page itself is unchanged). -/
theorem undo_then_redo_restores_page (s : AppState) (hr : Reachable s)
    (h : s.undoStack ≠ []) :
    (redoAction (undoAction s)).currentPage = s.currentPage ∧
    (redoAction (undoAction s)).pages s.currentPage = s.pages s.currentPage := by
  obtain ⟨pd, hp⟩ := Option.isSome_iff_exists.mp (reachable_current_isSome s hr)
  obtain ⟨last, hu⟩ := Option.isSome_iff_exists.mp (List.getLast?_isSome.mpr h)
  have h1 : undoAction s =
      { s with undoStack := s.undoStack.dropLast
               redoStack := s.redoStack ++ [snapshotOf s s.currentPage]
               pages := setPageEntry s.pages s.currentPage
                          ({ lines := last.lines, shapes := last.shapes }) } := by
    simp [undoAction, hu]
  rw [h1]
  have h2 : (s.redoStack ++ [snapshotOf s s.currentPage]).getLast? =
      some (snapshotOf s s.currentPage) := List.getLast?_concat _
  simp [redoAction, h2, setPageEntry, snapshotOf, pageLines, pageShapes, hp]

/-- Witness for C1 at the reachable state produced by one pointer-down
from the initial state. -/
theorem undo_then_redo_restores_page_witness :
    (redoAction (undoAction (handleMouseDown initialState ⟨5, 5⟩))).currentPage =
      (handleMouseDown initialState ⟨5, 5⟩).currentPage ∧
    (redoAction (undoAction (handleMouseDown initialState ⟨5, 5⟩))).pages
        (handleMouseDown initialState ⟨5, 5⟩).currentPage =
      (handleMouseDown initialState ⟨5, 5⟩).pages
        (handleMouseDown initialState ⟨5, 5⟩).currentPage :=
  undo_then_redo_restores_page (handleMouseDown initialState ⟨5, 5⟩)
    (Reachable.mouseDown initialState ⟨5, 5⟩ Reachable.init) (by decide)

/-- Claim C4: while a draw is active, a pointer-move appends the pointer
position to the in-progress stroke's point list when the tool is
SCRIBBLE, and otherwise sets the in-progress shape's width and height to
pointer minus origin (so extents may be negative). -/
theorem mouseMove_extends_draft (s : AppState) (point : Pos) (pd : PageData)
    (hd : s.isDrawing = true) (hp : s.pages s.currentPage = some pd) :
    (∀ pre l, s.selectedTool = Tool.SCRIBBLE → pd.lines = pre ++ [l] →
      handleMouseMove s point =
        some { s with
                pages := setPageEntry s.pages s.currentPage
                          ({ pd with lines := pre ++
                              [{ l with points := l.points ++ [point.x, point.y] }] }) }) ∧
    (∀ pre sh, s.selectedTool ≠ Tool.SCRIBBLE → pd.shapes = pre ++ [sh] →
      handleMouseMove s point =
        some { s with
                pages := setPageEntry s.pages s.currentPage
                          ({ pd with shapes := pre ++
                              [{ sh with width := point.x - sh.x,
                                         height := point.y - sh.y }] }) }) :=
  ⟨fun pre l ht hl => handleMouseMove_scribble s point pd pre l hd hp ht hl,
   fun pre sh ht hs => handleMouseMove_shape s point pd pre sh hd hp ht hs⟩

/-- Witness for C4: the rectangle begun at (50, 50) and dragged to
(10, 10) is recorded with width -40 and height -40. -/
theorem mouseMove_extends_draft_witness :
    (handleMouseMove rectState ⟨10, 10⟩).map (fun t => pageShapes t 1) =
      some [{ type := Tool.RECTANGLE, x := 50, y := 50,
              width := -40, height := -40, thickness := 2 }] := by
  have h := (mouseMove_extends_draft rectState ⟨10, 10⟩
      { lines := [],
        shapes := [{ type := Tool.RECTANGLE, x := 50, y := 50,
                     width := 0, height := 0, thickness := 2 }] } rfl rfl).2
      [] { type := Tool.RECTANGLE, x := 50, y := 50, width := 0, height := 0,
           thickness := 2 } (by decide) rfl
  rw [h]
  rfl

/-- Claim C3: every pointer-down that begins a new draw leaves the redo
stack empty, so an immediately following `redoAction` is a no-op; since
this holds for every state, it holds in particular after any sequence of
undos. -/
theorem mouseDown_clears_redoStack (s : AppState) (pos : Pos) :
    (handleMouseDown s pos).redoStack = [] ∧
    redoAction (handleMouseDown s pos) = handleMouseDown s pos :=
  ⟨rfl, rfl⟩

/-- Claim C7: `undoAction` on an empty undo stack leaves the entire
state unchanged, and `redoAction` on an empty redo stack leaves the
entire state unchanged. -/
theorem undo_redo_empty_noop (s : AppState) :
    (s.undoStack = [] → undoAction s = s) ∧
    (s.redoStack = [] → redoAction s = s) := by
  constructor <;> intro h
  · simp [undoAction, h]
  · simp [redoAction, h]

/-- Witness for C7 at a concrete state with both stacks empty. -/
theorem undo_redo_empty_noop_witness :
    undoAction { initialState with undoStack := [] } =
      { initialState with undoStack := [] } ∧
    redoAction { initialState with undoStack := [] } =
      { initialState with undoStack := [] } :=
  ⟨(undo_redo_empty_noop { initialState with undoStack := [] }).1 rfl,
   (undo_redo_empty_noop { initialState with undoStack := [] }).2 rfl⟩

/-- Claim C5: `handleMouseDown` with a valid pointer position pushes a
snapshot of the current page's lines and shapes onto the undo stack,
clears the redo stack, and appends exactly one new element to the
current page: a one-point stroke when the tool is SCRIBBLE, otherwise a
shape of the selected tool's type at the pointer with width and height
zero.  Other pages are untouched. -/
theorem mouseDown_begins_draw (s : AppState) (pos : Pos) :
    (handleMouseDown s pos).isDrawing = true ∧
    (handleMouseDown s pos).undoStack =
      s.undoStack ++ [snapshotOf s s.currentPage] ∧
    (handleMouseDown s pos).redoStack = [] ∧
    (∀ p, p ≠ s.currentPage → (handleMouseDown s pos).pages p = s.pages p) ∧
    (s.selectedTool = Tool.SCRIBBLE →
      (handleMouseDown s pos).pages s.currentPage =
        some { lines := pageLines s s.currentPage ++
                 [{ points := [pos.x, pos.y], thickness := s.thickness }],
               shapes := pageShapes s s.currentPage }) ∧
    (s.selectedTool ≠ Tool.SCRIBBLE →
      (handleMouseDown s pos).pages s.currentPage =
        some { lines := pageLines s s.currentPage,
               shapes := pageShapes s s.currentPage ++
                 [{ type := s.selectedTool, x := pos.x, y := pos.y,
                    width := 0, height := 0, thickness := s.thickness }] }) := by
  refine ⟨rfl, rfl, rfl, ?_, (handleMouseDown_pages_current s pos).1,
    (handleMouseDown_pages_current s pos).2⟩
  intro p hp
  simp [handleMouseDown, setPageEntry, hp]

/-- Witness for C5: a SCRIBBLE pointer-down at (5, 5) from the initial
state. -/
theorem mouseDown_begins_draw_witness :
    (handleMouseDown initialState ⟨5, 5⟩).pages 2 = initialState.pages 2 ∧
    (handleMouseDown initialState ⟨5, 5⟩).pages 1 =
      some { lines := [{ points := [5, 5], thickness := 2 }], shapes := [] } := by
  have h := mouseDown_begins_draw initialState ⟨5, 5⟩
  exact ⟨h.2.2.2.1 2 (by decide), h.2.2.2.2.1 rfl⟩

/-- Claim C6: `navigatePage n` sets the current page to `n`, creates an
empty annotation set for `n` exactly when none exists, and leaves the
undo stack, the redo stack, and every already-existing page's data
unchanged. -/
theorem navigatePage_spec (s : AppState) (page : Nat) :
    (navigatePage s page).currentPage = page ∧
    (navigatePage s page).undoStack = s.undoStack ∧
    (navigatePage s page).redoStack = s.redoStack ∧
    (s.pages page = none → (navigatePage s page).pages page = some emptyPage) ∧
    ((s.pages page).isSome → (navigatePage s page).pages = s.pages) ∧
    (∀ p, p ≠ page → (navigatePage s page).pages p = s.pages p) := by
  refine ⟨rfl, rfl, rfl, ?_, ?_, ?_⟩
  · intro h
    simp [navigatePage, setPageEntry, h]
  · intro h
    simp [navigatePage, h]
  · intro p hp
    cases h : (s.pages page).isSome <;>
      simp [navigatePage, setPageEntry, h, hp]

/-- Witness for C6: navigating from the initial state to never-visited
page 3 creates an empty set for page 3 and leaves page 1 alone. -/
theorem navigatePage_spec_witness :
    (navigatePage initialState 3).currentPage = 3 ∧
    (navigatePage initialState 3).pages 3 = some emptyPage ∧
    (navigatePage initialState 3).pages 1 = initialState.pages 1 := by
  have h := navigatePage_spec initialState 3
  exact ⟨h.1, h.2.2.2.1 (by decide), h.2.2.2.2.2 1 (by decide)⟩

/-- Claim C9: choosing a file discards the whole annotation session:
the pages map becomes a single empty entry for page 1, the undo stack
one empty snapshot, the redo stack empty, and the current page 1,
whatever the prior state held. -/
theorem fileChange_resets_session (s : AppState) :
    (handleFileChange s true).pages 1 = some emptyPage ∧
    (∀ p, p ≠ 1 → (handleFileChange s true).pages p = none) ∧
    (handleFileChange s true).undoStack = [emptyPage] ∧
    (handleFileChange s true).redoStack = [] ∧
    (handleFileChange s true).currentPage = 1 := by
  refine ⟨rfl, ?_, rfl, rfl, rfl⟩
  intro p hp
  simp [handleFileChange, resetCanvas, hp]

/-- Witness for C9: after drawing on page 1 and creating page 2, a file
change erases both pages' annotations. -/
theorem fileChange_resets_session_witness :
    (handleFileChange (navigatePage (handleMouseDown initialState ⟨5, 5⟩) 2)
        true).pages 1 = some emptyPage ∧
    (handleFileChange (navigatePage (handleMouseDown initialState ⟨5, 5⟩) 2)
        true).pages 2 = none := by
  have h := fileChange_resets_session
    (navigatePage (handleMouseDown initialState ⟨5, 5⟩) 2)
  exact ⟨h.1, h.2.1 2 (by decide)⟩

/-- Counterexample to C2 as stated: after `clearCanvas` the redo stack
is the empty array, not a single-element stack holding the empty
snapshot, so it is false that both history stacks are reset to a single
empty snapshot. -/
theorem clearCanvas_claim_counterexample :
    (clearCanvas initialState).redoStack = [] ∧
    (clearCanvas initialState).redoStack ≠ [emptyPage] := by
  constructor
  · rfl
  · decide

/-- Claim C2 (amended): `clearCanvas` empties the current page's
strokes and shapes, resets the undo stack to a single empty snapshot,
empties the redo stack, and leaves every other page's data unchanged. -/
theorem clearCanvas_spec (s : AppState) :
    (clearCanvas s).pages s.currentPage = some emptyPage ∧
    (clearCanvas s).undoStack = [emptyPage] ∧
    (clearCanvas s).redoStack = [] ∧
    (clearCanvas s).currentPage = s.currentPage ∧
    (∀ p, p ≠ s.currentPage → (clearCanvas s).pages p = s.pages p) := by
  refine ⟨?_, rfl, rfl, rfl, ?_⟩
  · simp [clearCanvas, setPageEntry]
  · intro p hp
    simp [clearCanvas, setPageEntry, hp]

/-- Witness for C2 (amended): clearing page 2 while page 1 holds a
stroke empties page 2 and leaves page 1's data intact. -/
theorem clearCanvas_spec_witness :
    (clearCanvas (navigatePage (handleMouseDown initialState ⟨5, 5⟩) 2)).pages 2 =
      some emptyPage ∧
    (clearCanvas (navigatePage (handleMouseDown initialState ⟨5, 5⟩) 2)).pages 1 =
      (navigatePage (handleMouseDown initialState ⟨5, 5⟩) 2).pages 1 := by
  have h := clearCanvas_spec (navigatePage (handleMouseDown initialState ⟨5, 5⟩) 2)
  exact ⟨h.1, h.2.2.2.2 1 (by decide)⟩

theorem pageCount_eq (s : AppState) (p : Nat) (pd : PageData)
    (h : s.pages p = some pd) :
    pageCount s p = pd.lines.length + pd.shapes.length := by
  simp [pageCount, pageLines, pageShapes, h]

theorem handleMouseDown_count (s : AppState) (pos : Pos) :
    pageCount (handleMouseDown s pos) s.currentPage =
      pageCount s s.currentPage + 1 := by
  by_cases ht : s.selectedTool = Tool.SCRIBBLE
  · rw [pageCount_eq _ _ _ ((handleMouseDown_pages_current s pos).1 ht)]
    simp [pageCount]
    omega
  · rw [pageCount_eq _ _ _ ((handleMouseDown_pages_current s pos).2 ht)]
    simp [pageCount]
    omega

theorem handleMouseMove_mid (s : AppState) (point : Pos) (pd : PageData)
    (hd : s.isDrawing = true) (hp : s.pages s.currentPage = some pd)
    (hl : s.selectedTool = Tool.SCRIBBLE → pd.lines ≠ [])
    (hs : s.selectedTool ≠ Tool.SCRIBBLE → pd.shapes ≠ []) :
    ∃ t pd2, handleMouseMove s point = some t ∧ t.isDrawing = true ∧
      t.currentPage = s.currentPage ∧ t.selectedTool = s.selectedTool ∧
      t.pages t.currentPage = some pd2 ∧
      pd2.lines.length = pd.lines.length ∧
      pd2.shapes.length = pd.shapes.length := by
  by_cases ht : s.selectedTool = Tool.SCRIBBLE
  · have hne := hl ht
    have hsplit : pd.lines = pd.lines.dropLast ++ [pd.lines.getLast hne] :=
      (List.dropLast_append_getLast hne).symm
    refine ⟨_, { pd with lines := pd.lines.dropLast ++
          [{ points := (pd.lines.getLast hne).points ++ [point.x, point.y],
             thickness := (pd.lines.getLast hne).thickness }] },
      handleMouseMove_scribble s point pd pd.lines.dropLast
        (pd.lines.getLast hne) hd hp ht hsplit, hd, rfl, rfl, ?_, ?_, rfl⟩
    · simp [setPageEntry]
    · have hpos : 0 < pd.lines.length := List.length_pos.mpr hne
      simp only [List.length_append, List.length_dropLast, List.length_singleton]
      omega
  · have hne := hs ht
    have hsplit : pd.shapes = pd.shapes.dropLast ++ [pd.shapes.getLast hne] :=
      (List.dropLast_append_getLast hne).symm
    refine ⟨_, { pd with shapes := pd.shapes.dropLast ++
          [{ type := (pd.shapes.getLast hne).type, x := (pd.shapes.getLast hne).x,
             y := (pd.shapes.getLast hne).y,
             width := point.x - (pd.shapes.getLast hne).x,
             height := point.y - (pd.shapes.getLast hne).y,
             thickness := (pd.shapes.getLast hne).thickness }] },
      handleMouseMove_shape s point pd pd.shapes.dropLast
        (pd.shapes.getLast hne) hd hp ht hsplit, hd, rfl, rfl, ?_, rfl, ?_⟩
    · simp [setPageEntry]
    · have hpos : 0 < pd.shapes.length := List.length_pos.mpr hne
      simp only [List.length_append, List.length_dropLast, List.length_singleton]
      omega

theorem applyMoves_mid : ∀ (ps : List Pos) (s : AppState) (pd : PageData),
    s.isDrawing = true → s.pages s.currentPage = some pd →
    (s.selectedTool = Tool.SCRIBBLE → pd.lines ≠ []) →
    (s.selectedTool ≠ Tool.SCRIBBLE → pd.shapes ≠ []) →
    ∃ t pd2, applyMoves s ps = some t ∧ t.isDrawing = true ∧
      t.currentPage = s.currentPage ∧ t.selectedTool = s.selectedTool ∧
      t.pages t.currentPage = some pd2 ∧
      pd2.lines.length = pd.lines.length ∧
      pd2.shapes.length = pd.shapes.length
  | [], s, pd, hd, hp, _, _ => ⟨s, pd, rfl, hd, rfl, rfl, hp, rfl, rfl⟩
  | p :: ps, s, pd, hd, hp, hl, hs => by
    obtain ⟨t1, pd1, heq1, hd1, hc1, ht1, hp1, hll1, hsl1⟩ :=
      handleMouseMove_mid s p pd hd hp hl hs
    have hl1 : t1.selectedTool = Tool.SCRIBBLE → pd1.lines ≠ [] := by
      rw [ht1]
      intro h hnil
      have hz : pd.lines.length = 0 := by rw [← hll1, hnil]; rfl
      exact hl h (List.length_eq_zero.mp hz)
    have hs1 : t1.selectedTool ≠ Tool.SCRIBBLE → pd1.shapes ≠ [] := by
      rw [ht1]
      intro h hnil
      have hz : pd.shapes.length = 0 := by rw [← hsl1, hnil]; rfl
      exact hs h (List.length_eq_zero.mp hz)
    obtain ⟨t2, pd2, heq2, hd2, hc2, ht2, hp2, hll2, hsl2⟩ :=
      applyMoves_mid ps t1 pd1 hd1 hp1 hl1 hs1
    refine ⟨t2, pd2, ?_, hd2, hc2.trans hc1, ht2.trans ht1, hp2,
      hll2.trans hll1, hsl2.trans hsl1⟩
    simp [applyMoves, heq1, heq2]

theorem applyDraw_count (s : AppState) (d : Draw) :
    ∃ t, applyDraw s d = some t ∧ t.isDrawing = false ∧
      t.currentPage = s.currentPage ∧ t.selectedTool = s.selectedTool ∧
      pageCount t s.currentPage = pageCount s s.currentPage + 1 := by
  have hstep :
      ∃ pd1, (handleMouseDown s d.start).pages s.currentPage = some pd1 ∧
        (s.selectedTool = Tool.SCRIBBLE → pd1.lines ≠ []) ∧
        (s.selectedTool ≠ Tool.SCRIBBLE → pd1.shapes ≠ []) := by
    by_cases ht : s.selectedTool = Tool.SCRIBBLE
    · exact ⟨_, (handleMouseDown_pages_current s d.start).1 ht,
        fun _ => by simp, fun hcon => absurd ht hcon⟩
    · exact ⟨_, (handleMouseDown_pages_current s d.start).2 ht,
        fun hcon => absurd hcon ht, fun _ => by simp⟩
  obtain ⟨pd1, hp1, hl1, hs1⟩ := hstep
  obtain ⟨t1, pd2, heq, hd1, hc1, ht1, hp2, hll, hsl⟩ :=
    applyMoves_mid d.moves (handleMouseDown s d.start) pd1 rfl hp1 hl1 hs1
  have hc1s : t1.currentPage = s.currentPage := hc1
  have hp2s : t1.pages s.currentPage = some pd2 := hc1s ▸ hp2
  refine ⟨handleMouseUp t1, ?_, rfl, hc1s, ht1, ?_⟩
  · simp [applyDraw, heq]
  · have h1 : pageCount (handleMouseUp t1) s.currentPage =
        pd2.lines.length + pd2.shapes.length := pageCount_eq _ _ _ hp2s
    have h2 : pageCount (handleMouseDown s d.start) s.currentPage =
        pd1.lines.length + pd1.shapes.length := pageCount_eq _ _ _ hp1
    have h3 := handleMouseDown_count s d.start
    rw [h1, hll, hsl, ← h2, h3]

theorem applyDraws_count : ∀ (ds : List Draw) (s : AppState),
    ∃ t, applyDraws s ds = some t ∧ t.currentPage = s.currentPage ∧
      pageCount t s.currentPage = pageCount s s.currentPage + ds.length
  | [], s => ⟨s, rfl, rfl, rfl⟩
  | d :: ds, s => by
    obtain ⟨t1, heq1, _, hc1, _, hcount1⟩ := applyDraw_count s d
    obtain ⟨t2, heq2, hc2, hcount2⟩ := applyDraws_count ds t1
    refine ⟨t2, ?_, hc2.trans hc1, ?_⟩
    · simp [applyDraws, heq1, heq2]
    · rw [hc1] at hcount2
      rw [hcount2, hcount1]
      simp
      omega

/-- Claim C8: a sequence of completed draws on a fixed page, with
nothing else interleaved, never throws, stays on that page, and leaves
the committed stroke-plus-shape count on the page equal to the number
of completed draws (starting from a page with no committed elements). -/
theorem draw_sequence_count (s : AppState) (ds : List Draw)
    (h : pageCount s s.currentPage = 0) :
    ∃ t, applyDraws s ds = some t ∧ t.currentPage = s.currentPage ∧
      pageCount t s.currentPage = ds.length := by
  obtain ⟨t, h1, h2, h3⟩ := applyDraws_count ds s
  exact ⟨t, h1, h2, by rw [h3, h]; simp⟩

/-- Witness for C8: two completed draws from the initial state commit
exactly two elements on page 1. -/
theorem draw_sequence_count_witness :
    ∃ t, applyDraws initialState
        [{ start := ⟨1, 1⟩, moves := [⟨2, 2⟩] },
         { start := ⟨3, 3⟩, moves := [] }] = some t ∧
      t.currentPage = initialState.currentPage ∧
      pageCount t initialState.currentPage = 2 :=
  draw_sequence_count initialState
    [{ start := ⟨1, 1⟩, moves := [⟨2, 2⟩] },
     { start := ⟨3, 3⟩, moves := [] }] rfl

/-- Claim C10: `undoAction` applies the popped snapshot to whichever
page is current at the time of the call; concretely, after drawing
twice on page 1 and navigating to page 2, an undo replaces page 2's
data with the snapshot of page 1's state before its second draw, while
page 1 keeps both strokes. -/
theorem undo_targets_current_page :
    (∀ (s : AppState) (rest : List PageData) (lastSnap : PageData),
      s.undoStack = rest ++ [lastSnap] →
      (undoAction s).currentPage = s.currentPage ∧
      (undoAction s).pages s.currentPage =
        some { lines := lastSnap.lines, shapes := lastSnap.shapes } ∧
      ∀ p, p ≠ s.currentPage → (undoAction s).pages p = s.pages p) ∧
    ((navigatePage drawnTwice 2).currentPage = 2 ∧
     (undoAction (navigatePage drawnTwice 2)).pages 2 =
       some { lines := [{ points := [1, 1], thickness := 2 }], shapes := [] } ∧
     (undoAction (navigatePage drawnTwice 2)).pages 1 =
       some { lines := [{ points := [1, 1], thickness := 2 },
                        { points := [3, 3], thickness := 2 }], shapes := [] }) := by
  constructor
  · intro s rest lastSnap hu
    have hg : s.undoStack.getLast? = some lastSnap := by
      rw [hu]; exact List.getLast?_concat _
    refine ⟨?_, ?_, ?_⟩
    · simp [undoAction, hg]
    · simp [undoAction, hg, setPageEntry]
    · intro p hp
      simp [undoAction, hg, setPageEntry, hp]
  · refine ⟨by decide, by decide, by decide⟩

/-- Witness for C10 at the concrete cross-page sequence. -/
theorem undo_targets_current_page_witness :
    (undoAction (navigatePage drawnTwice 2)).pages
        (navigatePage drawnTwice 2).currentPage =
      some { lines := [{ points := [1, 1], thickness := 2 }], shapes := [] } :=
  (undo_targets_current_page.1 (navigatePage drawnTwice 2)
    [emptyPage, emptyPage]
    { lines := [{ points := [1, 1], thickness := 2 }], shapes := [] }
    (by decide)).2.1

end Whiteboard
